import Mathlib

/-!
Verification development for the ISRO data-filter component
(src/IsroDataFilterComponent.tsx). The component state, the drawing-driven
bounding-box reduction, the WFS query builder, the fetch chain and the
workbench adapter are shallowly embedded below; JS numbers are modelled as
rationals and JS object key iteration order as insertion-ordered
association lists (the product ids tmc1, tmc2, ohrc are not integer-like
keys, so JS object iteration order is insertion order).
-/

/-- The component state (interface IsroDataFilterComponentState, lines
20-30): the four AOI coordinate inputs as raw text, the product-selection
map, and the drawing-mode flag. -/
structure FilterState where
  top : String
  bottom : String
  left : String
  right : String
  selectedProducts : List (String × Bool)
  drawingMode : Bool
deriving DecidableEq, Repr

/-- The four coordinate input names accepted by handleInputChange. -/
inductive CoordField
  | top
  | bottom
  | left
  | right
deriving DecidableEq, Repr

/-- setState with a single coordinate key (handleInputChange, lines 76-79):
overwrites that field with the raw text value. -/
def handleInputChange (s : FilterState) (f : CoordField) (v : String) : FilterState :=
  match f with
  | .top => { s with top := v }
  | .bottom => { s with bottom := v }
  | .left => { s with left := v }
  | .right => { s with right := v }

/-- The JS object spread update of selectedProducts: an existing key keeps
its position and gets the new value, a new key is appended at the end. -/
def upsertProduct (l : List (String × Bool)) (name : String) (checked : Bool) :
    List (String × Bool) :=
  match l with
  | [] => [(name, checked)]
  | (k, v) :: rest =>
      if k = name then (k, checked) :: rest
      else (k, v) :: upsertProduct rest name checked

/-- handleProductChange (lines 82-90): replaces selectedProducts by the
spread update with the toggled flag. -/
def handleProductChange (s : FilterState) (name : String) (checked : Bool) : FilterState :=
  { s with selectedProducts := upsertProduct s.selectedProducts name checked }

/-- Flag lookup in the selection map. -/
def getFlag (l : List (String × Bool)) (n : String) : Option Bool :=
  match l with
  | [] => none
  | (k, v) :: rest => if k = n then some v else getFlag rest n

/-- The initial state set in the constructor (lines 42-50): empty
coordinate fields, all three products selected, drawing mode off. -/
def initialState : FilterState :=
  { top := ""
    bottom := ""
    left := ""
    right := ""
    selectedProducts := [("tmc1", true), ("tmc2", true), ("ohrc", true)]
    drawingMode := false }

/-- The ASCII digit character for d (0-9). -/
def digitChar (d : Nat) : Char := Char.ofNat (48 + d)

/-- Decimal digit characters of n, most significant first, followed by acc
(the digit loop of number-to-string conversion). -/
def natChars (n : Nat) (acc : List Char) : List Char :=
  if h : n < 10 then digitChar n :: acc
  else natChars (n / 10) (digitChar (n % 10) :: acc)
termination_by n
decreasing_by
  exact Nat.div_lt_self (by omega) (by omega)

/-- Left-pad a digit list with zeros to length 6 (the fractional part of a
toFixed(6) rendering always has exactly 6 digits). -/
def pad6 (l : List Char) : List Char := List.replicate (6 - l.length) (digitChar 0) ++ l

/-- Round a nonnegative rational to the nearest integer, ties upward: the
integer n for which n - q is as close to zero as possible, the larger n on
a tie (the rounding ECMAScript prescribes for toFixed). -/
def nearestTiesUp (q : Rat) : Int := ⌊q + 1 / 2⌋

/-- Model of JS Number.prototype.toFixed(6) on a rational: sign from x < 0,
then the digits of the nearest integer to abs x * 10^6 (ties away from
zero), with a decimal point before the last six digits. JS falls back to
exponential notation for abs x at least 10^21; that branch is not modelled
and the round-trip theorem assumes abs x < 10^21. -/
def toFixed6 (x : Rat) : String :=
  let n := (nearestTiesUp (|x| * 1000000)).toNat
  let body := natChars (n / 1000000) [] ++ Char.ofNat 46 :: pad6 (natChars (n % 1000000) [])
  String.mk (if x < 0 then Char.ofNat 45 :: body else body)

/-- The signed integer of x scaled by 10^6 as toFixed(6) renders it:
nearest integer to the scaled absolute value, ties away from zero. -/
def fix6 (x : Rat) : Int :=
  if x < 0 then -nearestTiesUp (|x| * 1000000) else nearestTiesUp (|x| * 1000000)

/-- x rounded to 6 decimal places with the toFixed tie rule: the rational
value denoted by the toFixed(6) text. -/
def round6 (x : Rat) : Rat := (fix6 x : Rat) / 1000000

/-- A bounding box in degrees: top and bottom latitudes, left and right
longitudes. -/
structure BoundingBox where
  top : Rat
  bottom : Rat
  left : Rat
  right : Rat
deriving DecidableEq, Repr

/-- Math.max spread over a list (0 for the empty list, which the call site
excludes). -/
def listMax : List Rat → Rat
  | [] => 0
  | x :: xs => xs.foldl max x

/-- Math.min spread over a list (0 for the empty list, which the call site
excludes). -/
def listMin : List Rat → Rat
  | [] => 0
  | x :: xs => xs.foldl min x

/-- The bounding-box computation of onDrawingUpdated (lines 113-116):
top = Math.max(lats), bottom = Math.min(lats), left = Math.min(lons),
right = Math.max(lons). -/
def computeBox (lats lons : List Rat) : BoundingBox :=
  { top := listMax lats, bottom := listMin lats, left := listMin lons, right := listMax lons }

/-- The setState of line 117: overwrite the four coordinate fields with the
toFixed(6) text of the box and clear the drawing-mode flag. -/
def applyBoundingBox (s : FilterState) (box : BoundingBox) : FilterState :=
  { s with
    top := toFixed6 box.top
    bottom := toFixed6 box.bottom
    left := toFixed6 box.left
    right := toFixed6 box.right
    drawingMode := false }

/-- onDrawingUpdated (lines 99-122). An entity is modelled by the optional
(latitude, longitude) its position projects to (none when
position.getValue yields undefined). If the loop is closed and at least 3
entities exist, the latitudes and longitudes of the defined positions are
collected and, when nonempty, their bounding box is applied to the state;
otherwise the state is untouched. -/
def onDrawingUpdated (s : FilterState) (closeLoop : Bool)
    (entities : List (Option (Rat × Rat))) : FilterState :=
  if closeLoop = true ∧ 3 ≤ entities.length then
    let pts := entities.filterMap id
    let lats := pts.map Prod.fst
    let lons := pts.map Prod.snd
    if lats ≠ [] ∧ lons ≠ [] then applyBoundingBox s (computeBox lats lons) else s
  else s

/-- onDrawingCleanUp (lines 124-126): clears the drawing-mode flag. -/
def onDrawingCleanUp (s : FilterState) : FilterState := { s with drawingMode := false }

/-- Characters encodeURIComponent leaves untouched: ASCII letters, digits,
and - _ . ! ~ * apostrophe ( ). -/
def isUnreserved (c : Char) : Bool :=
  (65 ≤ c.toNat && c.toNat ≤ 90) || (97 ≤ c.toNat && c.toNat ≤ 122) ||
  (48 ≤ c.toNat && c.toNat ≤ 57) ||
  c.toNat = 45 || c.toNat = 95 || c.toNat = 46 || c.toNat = 33 ||
  c.toNat = 126 || c.toNat = 42 || c.toNat = 39 || c.toNat = 40 || c.toNat = 41

/-- The UTF-8 bytes of a character, as natural numbers. -/
def utf8Bytes (c : Char) : List Nat :=
  let n := c.toNat
  if n < 128 then [n]
  else if n < 2048 then [192 + n / 64, 128 + n % 64]
  else if n < 65536 then [224 + n / 4096, 128 + n / 64 % 64, 128 + n % 64]
  else [240 + n / 262144, 128 + n / 4096 % 64, 128 + n / 64 % 64, 128 + n % 64]

/-- Uppercase hexadecimal digit character for d (0-15). -/
def hexChar (d : Nat) : Char := if d < 10 then Char.ofNat (48 + d) else Char.ofNat (55 + d)

/-- Percent-escape of one byte: percent sign and two uppercase hex digits. -/
def pctByte (b : Nat) : List Char := [Char.ofNat 37, hexChar (b / 16), hexChar (b % 16)]

/-- Model of JS encodeURIComponent: unreserved characters pass through, every
other character is replaced by the percent-escapes of its UTF-8 bytes. -/
def encodeURIComponent (s : String) : String :=
  String.mk ((s.data.map fun c =>
    if isUnreserved c then [c] else (utf8Bytes c).map pctByte |>.flatten).flatten)

/-- Outcome of pressing the query button: either one of the two validation
alerts followed by an early return, or a single GET request to the built
URL. -/
inductive QueryOutcome
  | validationAlert (msg : String)
  | request (url : String)
deriving DecidableEq, Repr

/-- The alert text of line 133. -/
def aoiIncompleteMsg : String :=
  "Please provide all coordinate values for the area of interest."

/-- The alert text of line 143. -/
def noProductMsg : String := "Please select at least one data product."

/-- The hard-coded endpoint of line 151. -/
def geoServerUrl : String := "http://your-geoserver-url/geoserver/wfs"

/-- The WKT polygon template literal of line 138. -/
def wktPolygon (left bottom right top : String) : String :=
  "POLYGON((" ++ left ++ " " ++ bottom ++ ", " ++ right ++ " " ++ bottom ++ ", " ++
    right ++ " " ++ top ++ ", " ++ left ++ " " ++ top ++ ", " ++ left ++ " " ++ bottom ++ "))"

/-- Object.keys(selectedProducts).filter(key => selectedProducts[key]) of
line 141: the keys whose flag is true, in map iteration order. -/
def selectedWorkspaces (l : List (String × Bool)) : List String :=
  (l.filter fun p => p.2).map fun p => p.1

/-- queryGeoServer (lines 129-164) up to the fetch: validate the four
coordinate fields (a JS falsy test on a string holds exactly for the empty
string), build the WKT polygon and the cql filter, validate the product
selection, and assemble the GetFeature URL. -/
def queryGeoServer (s : FilterState) : QueryOutcome :=
  if s.top = "" ∨ s.bottom = "" ∨ s.left = "" ∨ s.right = "" then
    .validationAlert aoiIncompleteMsg
  else
    let wkt := wktPolygon s.left s.bottom s.right s.top
    let ws := selectedWorkspaces s.selectedProducts
    if ws = [] then .validationAlert noProductMsg
    else
      let typeNames := String.intercalate "," (ws.map fun w => w ++ ":datapoints")
      let cqlFilter := "INTERSECTS(geom, " ++ wkt ++ ")"
      .request (geoServerUrl ++ "?service=WFS&version=1.1.0&request=GetFeature&typeName=" ++
        typeNames ++ "&cql_filter=" ++ encodeURIComponent cqlFilter ++
        "&outputFormat=application/json")

/-- The queryGeoServer handler as a state transition: the handler never
calls setState, so the state component is returned unchanged alongside the
outcome. -/
def queryGeoServerStep (s : FilterState) : FilterState × QueryOutcome :=
  (s, queryGeoServer s)

/-- A JSON document (the opaque GeoJSON payload passed through the fetch
chain). -/
inductive Json
  | null
  | bool (b : Bool)
  | num (q : Rat)
  | str (s : String)
  | arr (xs : List Json)
  | obj (fields : List (String × Json))

/-- The workbench catalog item literal of addDataToWorkbench (lines
167-175); the payload type is the TS any. -/
structure DataItem (α : Type) where
  name : String
  type : String
  data : α
  isEnabled : Bool

/-- addDataToWorkbench (lines 167-175): wrap the GeoJSON in a catalog item
with the fixed name, the geojson type tag and isEnabled true, and hand it
to the catalog. -/
def addDataToWorkbench {α : Type} (geoJsonData : α) : DataItem α :=
  { name := "Filtered Data", type := "geojson", data := geoJsonData, isEnabled := true }

/-- What the transport produced for the single GET of line 156: either a
network error with its cause (the only way fetch rejects), or an HTTP
response with a status code and a body; the body is modelled by the
outcome of JSON-parsing it (none when it is not valid JSON). -/
inductive TransportOutcome
  | networkError (cause : String)
  | response (status : Nat) (jsonBody : Option Json)

/-- Observable result of the fetch chain of lines 156-163: either
addDataToWorkbench ran on a parsed document, or the catch handler logged
the error cause. -/
inductive FetchResult
  | loaded (item : DataItem Json)
  | loggedError (cause : String)

/-- The cause string a rejected response.json() produces. -/
def jsonParseErrorMsg : String := "SyntaxError: unexpected token in JSON"

/-- The fetch chain of lines 156-163: fetch(url).then(r => r.json()).then(
addDataToWorkbench).catch(log). A network error and a body that is not
valid JSON reach the catch handler; any response whose body parses as JSON
is handed to addDataToWorkbench - the status code is never inspected. -/
def runFetch (t : TransportOutcome) : FetchResult :=
  match t with
  | .networkError cause => .loggedError cause
  | .response _ none => .loggedError jsonParseErrorMsg
  | .response _ (some j) => .loaded (addDataToWorkbench j)

/-- The user events the component handles. -/
inductive UiEvent
  | input (f : CoordField) (v : String)
  | product (name : String) (checked : Bool)
  | draw (closeLoop : Bool) (entities : List (Option (Rat × Rat)))
  | drawCleanUp
deriving DecidableEq

/-- Apply one event to the state via its handler. -/
def applyEvent (s : FilterState) : UiEvent → FilterState
  | .input f v => handleInputChange s f v
  | .product n c => handleProductChange s n c
  | .draw cl es => onDrawingUpdated s cl es
  | .drawCleanUp => onDrawingCleanUp s

/-- Apply a sequence of events from left to right. -/
def applyEvents (s : FilterState) (es : List UiEvent) : FilterState :=
  es.foldl applyEvent s

/-- An event that deselects a product. -/
def isDeselect : UiEvent → Bool
  | .product _ false => true
  | _ => false

/-- Some product flag in the map is true. -/
def someSelected (l : List (String × Bool)) : Bool :=
  l.any fun p => p.2

/-- ASCII decimal digit test. -/
def isDigitCh (c : Char) : Bool := 48 ≤ c.toNat && c.toNat ≤ 57

/-- Numeric value of a digit character. -/
def digitVal (c : Char) : Nat := c.toNat - 48

/-- The natural number denoted by a digit list, most significant first. -/
def chNum (cs : List Char) : Nat := cs.foldl (fun a c => a * 10 + digitVal c) 0

/-- Parse an unsigned decimal numeral, optionally with a fractional part:
one or more integer digits, then either nothing or a point followed by one
or more fraction digits. -/
def parseUnsigned (cs : List Char) : Option Rat :=
  let ip := cs.takeWhile isDigitCh
  let rest := cs.dropWhile isDigitCh
  if ip = [] then none
  else
    match rest with
    | [] => some (chNum ip : Rat)
    | c :: frac =>
        if c = Char.ofNat 46 ∧ frac ≠ [] ∧ frac.all isDigitCh then
          some ((chNum ip : Rat) + (chNum frac : Rat) / (10 : Rat) ^ frac.length)
        else none

/-- Read the decimal value a coordinate text field denotes: an optional
leading minus sign, then an unsigned decimal numeral. -/
def parseDec (s : String) : Option Rat :=
  match s.data with
  | [] => none
  | c :: rest =>
      if c = Char.ofNat 45 then (parseUnsigned rest).map (fun q => -q)
      else parseUnsigned (c :: rest)

/-! ### Helper lemmas about the state operations -/

lemma onDrawingUpdated_selectedProducts (s : FilterState) (closeLoop : Bool)
    (entities : List (Option (Rat × Rat))) :
    (onDrawingUpdated s closeLoop entities).selectedProducts = s.selectedProducts := by
  rw [onDrawingUpdated]
  split
  · dsimp only
    split
    · rfl
    · rfl
  · rfl

lemma handleInputChange_selectedProducts (s : FilterState) (f : CoordField) (v : String) :
    (handleInputChange s f v).selectedProducts = s.selectedProducts := by
  cases f <;> rfl

lemma getFlag_upsert_self (l : List (String × Bool)) (n : String) (c : Bool) :
    getFlag (upsertProduct l n c) n = some c := by
  induction l with
  | nil => simp [upsertProduct, getFlag]
  | cons p rest ih =>
      obtain ⟨k, v⟩ := p
      by_cases hk : k = n
      · simp [upsertProduct, getFlag, hk]
      · simp [upsertProduct, getFlag, hk, ih]

lemma getFlag_upsert_ne (l : List (String × Bool)) (n m : String) (c : Bool)
    (hm : m ≠ n) : getFlag (upsertProduct l n c) m = getFlag l m := by
  have hnm : n ≠ m := Ne.symm hm
  induction l with
  | nil => simp [upsertProduct, getFlag, hnm]
  | cons p rest ih =>
      obtain ⟨k, v⟩ := p
      by_cases hk : k = n
      · subst hk
        simp [upsertProduct, getFlag, hnm]
      · simp only [upsertProduct, if_neg hk, getFlag, ih]

lemma someSelected_upsert_true (l : List (String × Bool)) (n : String) :
    someSelected (upsertProduct l n true) = true := by
  induction l with
  | nil => simp [upsertProduct, someSelected]
  | cons p rest ih =>
      obtain ⟨k, v⟩ := p
      by_cases hk : k = n
      · simp [upsertProduct, someSelected, hk]
      · simp only [upsertProduct, if_neg hk, someSelected, List.any_cons]
        simp only [someSelected] at ih
        simp [ih]

lemma someSelected_applyEvent (s : FilterState) (e : UiEvent)
    (hd : isDeselect e = false) (hs : someSelected s.selectedProducts = true) :
    someSelected (applyEvent s e).selectedProducts = true := by
  cases e with
  | input f v => rwa [applyEvent, handleInputChange_selectedProducts]
  | product n c =>
      cases c with
      | false => simp [isDeselect] at hd
      | true => simp [applyEvent, handleProductChange, someSelected_upsert_true]
  | draw cl es => rwa [applyEvent, onDrawingUpdated_selectedProducts]
  | drawCleanUp => exact hs

lemma someSelected_applyEvents (tr : List UiEvent) (s : FilterState)
    (hd : ∀ e ∈ tr, isDeselect e = false) (hs : someSelected s.selectedProducts = true) :
    someSelected (applyEvents s tr).selectedProducts = true := by
  induction tr generalizing s with
  | nil => exact hs
  | cons e rest ih =>
      exact ih (applyEvent s e) (fun x hx => hd x (List.mem_cons_of_mem e hx))
        (someSelected_applyEvent s e (hd e (List.mem_cons_self e rest)) hs)

lemma getFlag_mem (l : List (String × Bool)) (k : String) (b : Bool)
    (h : getFlag l k = some b) : (k, b) ∈ l := by
  induction l with
  | nil => simp [getFlag] at h
  | cons p rest ih =>
      obtain ⟨k0, v0⟩ := p
      rw [getFlag] at h
      by_cases hk : k0 = k
      · rw [if_pos hk] at h
        injection h with hb
        subst hb
        subst hk
        exact List.mem_cons_self _ _
      · rw [if_neg hk] at h
        exact List.mem_cons_of_mem _ (ih h)

lemma getFlag_applyEvent (s : FilterState) (e : UiEvent) (k : String)
    (hne : e ≠ UiEvent.product k false)
    (h : getFlag s.selectedProducts k = some true) :
    getFlag (applyEvent s e).selectedProducts k = some true := by
  cases e with
  | input f v => rwa [applyEvent, handleInputChange_selectedProducts]
  | product n c =>
      by_cases hk : n = k
      · subst hk
        cases c with
        | false => exact absurd rfl hne
        | true =>
            rw [applyEvent, handleProductChange]
            exact getFlag_upsert_self s.selectedProducts n true
      · rw [applyEvent, handleProductChange]
        rw [getFlag_upsert_ne s.selectedProducts n k c (Ne.symm hk)]
        exact h
  | draw cl es => rwa [applyEvent, onDrawingUpdated_selectedProducts]
  | drawCleanUp => exact h

lemma getFlag_applyEvents (tr : List UiEvent) (s : FilterState) (k : String)
    (hne : ∀ e ∈ tr, e ≠ UiEvent.product k false)
    (h : getFlag s.selectedProducts k = some true) :
    getFlag (applyEvents s tr).selectedProducts k = some true := by
  induction tr generalizing s with
  | nil => exact h
  | cons e rest ih =>
      exact ih (applyEvent s e) (fun x hx => hne x (List.mem_cons_of_mem e hx))
        (getFlag_applyEvent s e k (hne e (List.mem_cons_self e rest)) h)

lemma noProduct_alert_flags_false (s : FilterState)
    (h : queryGeoServer s = QueryOutcome.validationAlert noProductMsg) :
    ∀ k b, getFlag s.selectedProducts k = some b → b = false := by
  intro k b hkb
  rw [queryGeoServer] at h
  split at h
  · have heq : aoiIncompleteMsg = noProductMsg := by injection h
    exact absurd heq (by decide)
  · simp only at h
    by_cases hws : selectedWorkspaces s.selectedProducts = []
    · have hall : ∀ p ∈ s.selectedProducts, ¬p.2 = true := by
        intro p hp
        rw [selectedWorkspaces] at hws
        rcases List.map_eq_nil_iff.mp hws with hf
        exact fun hpt => List.not_mem_nil p (hf ▸ List.mem_filter.mpr ⟨hp, hpt⟩)
      have hmem := getFlag_mem s.selectedProducts k b hkb
      cases b with
      | false => rfl
      | true => exact absurd rfl (hall (k, true) hmem)
    · rw [if_neg hws] at h
      exact QueryOutcome.noConfusion h

lemma selectedWorkspaces_ne_nil_of_someSelected (l : List (String × Bool))
    (h : someSelected l = true) : selectedWorkspaces l ≠ [] := by
  simp only [someSelected, List.any_eq_true] at h
  obtain ⟨p, hp, hpt⟩ := h
  simp only [selectedWorkspaces, ne_eq, List.map_eq_nil_iff]
  intro hnil
  have : p ∈ List.filter (fun p => p.2) l := List.mem_filter.mpr ⟨hp, hpt⟩
  rw [hnil] at this
  exact List.not_mem_nil p this

lemma natChars_eq_append (n : Nat) : ∀ acc, natChars n acc = natChars n [] ++ acc := by
  induction n using Nat.strong_induction_on with
  | _ n ih =>
    intro acc
    rw [natChars.eq_def n acc, natChars.eq_def n []]
    by_cases h : n < 10
    · rw [dif_pos h, dif_pos h]
      rfl
    · have hd : n / 10 < n := Nat.div_lt_self (by omega) (by omega)
      rw [dif_neg h, dif_neg h, ih (n / 10) hd (digitChar (n % 10) :: acc),
        ih (n / 10) hd (digitChar (n % 10) :: [])]
      simp

lemma natChars_ne_nil (n : Nat) : natChars n [] ≠ [] := by
  rw [natChars.eq_def]
  by_cases h : n < 10
  · rw [dif_pos h]
    exact List.cons_ne_nil _ _
  · rw [dif_neg h, natChars_eq_append]
    simp

lemma isDigitCh_digitChar (d : Nat) (h : d < 10) : isDigitCh (digitChar d) = true := by
  interval_cases d <;> decide

lemma natChars_all_digits (n : Nat) :
    ∀ acc, (∀ c ∈ acc, isDigitCh c = true) → ∀ c ∈ natChars n acc, isDigitCh c = true := by
  induction n using Nat.strong_induction_on with
  | _ n ih =>
    intro acc hacc c hc
    rw [natChars.eq_def] at hc
    by_cases h : n < 10
    · rw [dif_pos h] at hc
      rcases List.mem_cons.mp hc with h1 | h1
      · subst h1
        exact isDigitCh_digitChar n h
      · exact hacc c h1
    · rw [dif_neg h] at hc
      have hd : n / 10 < n := Nat.div_lt_self (by omega) (by omega)
      refine ih (n / 10) hd (digitChar (n % 10) :: acc) ?_ c hc
      intro x hx
      rcases List.mem_cons.mp hx with h1 | h1
      · subst h1
        exact isDigitCh_digitChar _ (Nat.mod_lt n (by omega))
      · exact hacc x h1

lemma digitVal_digitChar (d : Nat) (h : d < 10) : digitVal (digitChar d) = d := by
  interval_cases d <;> decide

lemma foldl_natChars (n : Nat) :
    ∀ acc, (natChars n acc).foldl (fun a c => a * 10 + digitVal c) 0 =
      acc.foldl (fun a c => a * 10 + digitVal c) n := by
  induction n using Nat.strong_induction_on with
  | _ n ih =>
    intro acc
    rw [natChars.eq_def]
    by_cases h : n < 10
    · rw [dif_pos h]
      simp [List.foldl_cons, digitVal_digitChar n h]
    · rw [dif_neg h]
      have hd : n / 10 < n := Nat.div_lt_self (by omega) (by omega)
      rw [ih (n / 10) hd (digitChar (n % 10) :: acc)]
      simp only [List.foldl_cons, digitVal_digitChar (n % 10) (Nat.mod_lt n (by omega))]
      have heq : n / 10 * 10 + n % 10 = n := by omega
      rw [heq]

lemma chNum_natChars (n : Nat) : chNum (natChars n []) = n := by
  rw [chNum, foldl_natChars n []]
  rfl

lemma natChars_length_le (k : Nat) : ∀ n, 0 < k → n < 10 ^ k → (natChars n []).length ≤ k := by
  induction k with
  | zero => omega
  | succ k ihk =>
      intro n _ hn
      rw [natChars.eq_def]
      by_cases h : n < 10
      · rw [dif_pos h]
        simp
      · rw [dif_neg h, natChars_eq_append]
        have hk : 0 < k := by
          by_contra hk0
          have hz : k = 0 := by omega
          subst hz
          simp at hn
          omega
        have hdiv : n / 10 < 10 ^ k := by
          rw [Nat.div_lt_iff_lt_mul (by omega)]
          calc n < 10 ^ (k + 1) := hn
          _ = 10 ^ k * 10 := by ring
        have hlen := ihk (n / 10) hk hdiv
        simp [List.length_append]
        omega

lemma takeWhile_all_append (p : Char → Bool) (l : List Char) (hl : ∀ c ∈ l, p c = true)
    (c : Char) (hc : p c = false) (r : List Char) :
    (l ++ c :: r).takeWhile p = l ∧ (l ++ c :: r).dropWhile p = c :: r := by
  induction l with
  | nil =>
      constructor
      · simp [List.takeWhile_cons, hc]
      · simp [List.dropWhile_cons, hc]
  | cons a t ih =>
      have ha : p a = true := hl a (List.mem_cons_self a t)
      have iht := ih (fun x hx => hl x (List.mem_cons_of_mem a hx))
      constructor
      · simp [List.takeWhile_cons, ha, iht.1]
      · simp [List.dropWhile_cons, ha, iht.2]

lemma chNum_pad6 (l : List Char) : chNum (pad6 l) = chNum l := by
  rw [pad6, chNum, chNum, List.foldl_append]
  have hz : ∀ k, (List.replicate k (digitChar 0)).foldl (fun a c => a * 10 + digitVal c) 0 = 0 := by
    intro k
    induction k with
    | zero => rfl
    | succ k ihk => simpa [List.replicate_succ, List.foldl_cons] using ihk
  rw [hz]

lemma pad6_all_digits (l : List Char) (h : ∀ c ∈ l, isDigitCh c = true) :
    ∀ c ∈ pad6 l, isDigitCh c = true := by
  intro c hc
  rw [pad6] at hc
  rcases List.mem_append.mp hc with h1 | h1
  · have hc0 := List.eq_of_mem_replicate h1
    subst hc0
    decide
  · exact h c h1

lemma pad6_length (l : List Char) (h : l.length ≤ 6) : (pad6 l).length = 6 := by
  rw [pad6]
  simp [List.length_append, List.length_replicate]
  omega

lemma parseUnsigned_body (n : Nat) :
    parseUnsigned (natChars (n / 1000000) [] ++ Char.ofNat 46 :: pad6 (natChars (n % 1000000) [])) =
      some ((n : Rat) / 1000000) := by
  have hip : ∀ c ∈ natChars (n / 1000000) [], isDigitCh c = true :=
    natChars_all_digits (n / 1000000) [] (by intro c hc; cases hc)
  have hdot : isDigitCh (Char.ofNat 46) = false := by decide
  have htd := takeWhile_all_append isDigitCh (natChars (n / 1000000) []) hip
    (Char.ofNat 46) hdot (pad6 (natChars (n % 1000000) []))
  rw [parseUnsigned]
  simp only [htd.1, htd.2]
  rw [if_neg (by simpa using natChars_ne_nil (n / 1000000))]
  have hfd : ∀ c ∈ pad6 (natChars (n % 1000000) []), isDigitCh c = true :=
    pad6_all_digits _ (natChars_all_digits (n % 1000000) [] (by intro c hc; cases hc))
  have hfne : pad6 (natChars (n % 1000000) []) ≠ [] := by
    rw [pad6]
    simp [natChars_ne_nil (n % 1000000)]
  have hflen : (pad6 (natChars (n % 1000000) [])).length = 6 := by
    apply pad6_length
    exact natChars_length_le 6 (n % 1000000) (by omega) (Nat.mod_lt n (by omega))
  rw [if_pos ⟨trivial, hfne, List.all_eq_true.mpr hfd⟩]
  rw [chNum_natChars, chNum_pad6, chNum_natChars, hflen]
  congr 1
  have h6 : ((10 : Rat) ^ 6) = 1000000 := by norm_num
  rw [h6, eq_div_iff (by norm_num : (1000000 : Rat) ≠ 0), add_mul,
    div_mul_cancel₀ _ (by norm_num : (1000000 : Rat) ≠ 0)]
  have hmod : n / 1000000 * 1000000 + n % 1000000 = n := by omega
  exact_mod_cast hmod

lemma parseDec_toFixed6 (x : Rat) : parseDec (toFixed6 x) = some (round6 x) := by
  have hn0 : 0 ≤ nearestTiesUp (|x| * 1000000) := by
    rw [nearestTiesUp]
    refine Int.le_floor.mpr ?_
    push_cast
    positivity
  have hcast : (((nearestTiesUp (|x| * 1000000)).toNat : Int)) = nearestTiesUp (|x| * 1000000) :=
    Int.toNat_of_nonneg hn0
  set n : Nat := (nearestTiesUp (|x| * 1000000)).toNat with hndef
  by_cases hx : x < 0
  · rw [toFixed6]
    rw [if_pos hx, ← hndef, parseDec]
    dsimp only
    rw [if_pos rfl, parseUnsigned_body]
    rw [round6, fix6, if_pos hx, ← hcast]
    push_cast
    simp [neg_div]
  · obtain ⟨c, cs, hb⟩ := List.exists_cons_of_ne_nil (natChars_ne_nil (n / 1000000))
    have hcdig : isDigitCh c = true := by
      refine natChars_all_digits (n / 1000000) [] (by intro y hy; cases hy) c ?_
      rw [hb]
      exact List.mem_cons_self c cs
    have hcne : ¬(c = Char.ofNat 45) := by
      intro hce
      subst hce
      exact absurd hcdig (by decide)
    rw [toFixed6]
    rw [if_neg hx, ← hndef, hb, List.cons_append, parseDec]
    dsimp only
    rw [if_neg hcne, ← List.cons_append, ← hb, parseUnsigned_body]
    rw [round6, fix6, if_neg hx, ← hcast]
    push_cast
    ring_nf

lemma le_foldl_max (a : Rat) (l : List Rat) : a ≤ l.foldl max a := by
  induction l generalizing a with
  | nil => exact le_refl a
  | cons b t ih => exact le_trans (le_max_left a b) (ih (max a b))

lemma mem_le_foldl_max (x a : Rat) (l : List Rat) (h : x ∈ l) : x ≤ l.foldl max a := by
  induction l generalizing a with
  | nil => cases h
  | cons b t ih =>
      rcases List.mem_cons.mp h with hx | hx
      · subst hx
        exact le_trans (le_max_right a x) (le_foldl_max (max a x) t)
      · exact ih (max a b) hx

lemma foldl_max_mem (a : Rat) (l : List Rat) : l.foldl max a ∈ a :: l := by
  induction l generalizing a with
  | nil => exact List.mem_singleton.mpr rfl
  | cons b t ih =>
      have h := ih (max a b)
      rcases List.mem_cons.mp h with h1 | h1
      · rcases max_choice a b with hm | hm
        · exact List.mem_cons.mpr (Or.inl (h1.trans hm))
        · exact List.mem_cons.mpr (Or.inr (List.mem_cons.mpr (Or.inl (h1.trans hm))))
      · exact List.mem_cons.mpr (Or.inr (List.mem_cons.mpr (Or.inr h1)))

lemma foldl_min_le (a : Rat) (l : List Rat) : l.foldl min a ≤ a := by
  induction l generalizing a with
  | nil => exact le_refl a
  | cons b t ih => exact le_trans (ih (min a b)) (min_le_left a b)

lemma foldl_min_le_mem (x a : Rat) (l : List Rat) (h : x ∈ l) : l.foldl min a ≤ x := by
  induction l generalizing a with
  | nil => cases h
  | cons b t ih =>
      rcases List.mem_cons.mp h with hx | hx
      · subst hx
        exact le_trans (foldl_min_le (min a x) t) (min_le_right a x)
      · exact ih (min a b) hx

lemma foldl_min_mem (a : Rat) (l : List Rat) : l.foldl min a ∈ a :: l := by
  induction l generalizing a with
  | nil => exact List.mem_singleton.mpr rfl
  | cons b t ih =>
      have h := ih (min a b)
      rcases List.mem_cons.mp h with h1 | h1
      · rcases min_choice a b with hm | hm
        · exact List.mem_cons.mpr (Or.inl (h1.trans hm))
        · exact List.mem_cons.mpr (Or.inr (List.mem_cons.mpr (Or.inl (h1.trans hm))))
      · exact List.mem_cons.mpr (Or.inr (List.mem_cons.mpr (Or.inr h1)))

lemma listMax_mem (l : List Rat) (h : l ≠ []) : listMax l ∈ l := by
  cases l with
  | nil => exact absurd rfl h
  | cons a t => exact foldl_max_mem a t

lemma le_listMax (l : List Rat) (x : Rat) (h : x ∈ l) : x ≤ listMax l := by
  cases l with
  | nil => cases h
  | cons a t =>
      rcases List.mem_cons.mp h with hx | hx
      · subst hx
        exact le_foldl_max x t
      · exact mem_le_foldl_max x a t hx

lemma listMin_mem (l : List Rat) (h : l ≠ []) : listMin l ∈ l := by
  cases l with
  | nil => exact absurd rfl h
  | cons a t => exact foldl_min_mem a t

lemma listMin_le (l : List Rat) (x : Rat) (h : x ∈ l) : listMin l ≤ x := by
  cases l with
  | nil => cases h
  | cons a t =>
      rcases List.mem_cons.mp h with hx | hx
      · subst hx
        exact foldl_min_le x t
      · exact foldl_min_le_mem x a t hx

lemma listMax_perm (l lp : List Rat) (h : l.Perm lp) (hl : l ≠ []) :
    listMax l = listMax lp := by
  have hlp : lp ≠ [] := fun hn => hl (List.Perm.eq_nil (hn ▸ h))
  exact le_antisymm
    (le_listMax lp (listMax l) (h.mem_iff.mp (listMax_mem l hl)))
    (le_listMax l (listMax lp) (h.mem_iff.mpr (listMax_mem lp hlp)))

lemma listMin_perm (l lp : List Rat) (h : l.Perm lp) (hl : l ≠ []) :
    listMin l = listMin lp := by
  have hlp : lp ≠ [] := fun hn => hl (List.Perm.eq_nil (hn ▸ h))
  exact le_antisymm
    (listMin_le l (listMin lp) (h.mem_iff.mpr (listMin_mem lp hlp)))
    (listMin_le lp (listMin l) (h.mem_iff.mp (listMin_mem l hl)))

lemma queryGeoServer_ne_noProduct (s : FilterState)
    (h : someSelected s.selectedProducts = true) :
    queryGeoServer s ≠ QueryOutcome.validationAlert noProductMsg := by
  rw [queryGeoServer]
  split
  · intro hc
    have : aoiIncompleteMsg = noProductMsg := by injection hc
    exact absurd this (by decide)
  · simp only
    rw [if_neg (selectedWorkspaces_ne_nil_of_someSelected s.selectedProducts h)]
    intro hc
    exact QueryOutcome.noConfusion hc

/-! ### The claims -/

/-- C1: for every state whose four coordinate fields are nonempty and whose
selection has at least one selected id, the built request is a GET of
exactly endpoint?service=WFS&version=1.1.0&request=GetFeature&typeName=t
&cql_filter=f&outputFormat=application/json, where t joins id:datapoints
over the selected ids in selection-map iteration order and f is the
percent-encoding of INTERSECTS(geom, POLYGON((left bottom, right bottom,
right top, left top, left bottom))); moreover for the Scenario B inputs the
typeNames text is tmc1:datapoints,ohrc:datapoints and the WKT ring is
POLYGON((2.33 48.8, 2.35 48.8, 2.35 48.9, 2.33 48.9, 2.33 48.8)). -/
theorem wfsUrl_exact (s : FilterState)
    (h1 : s.top ≠ "") (h2 : s.bottom ≠ "") (h3 : s.left ≠ "") (h4 : s.right ≠ "")
    (h5 : selectedWorkspaces s.selectedProducts ≠ []) :
    queryGeoServer s = QueryOutcome.request
      (geoServerUrl ++ "?service=WFS&version=1.1.0&request=GetFeature&typeName=" ++
        String.intercalate ","
          ((selectedWorkspaces s.selectedProducts).map fun w => w ++ ":datapoints") ++
        "&cql_filter=" ++
        encodeURIComponent
          ("INTERSECTS(geom, " ++ wktPolygon s.left s.bottom s.right s.top ++ ")") ++
        "&outputFormat=application/json") ∧
    String.intercalate ","
        ((selectedWorkspaces [("tmc1", true), ("tmc2", false), ("ohrc", true)]).map
          fun w => w ++ ":datapoints") = "tmc1:datapoints,ohrc:datapoints" ∧
    wktPolygon "2.33" "48.8" "2.35" "48.9" =
      "POLYGON((2.33 48.8, 2.35 48.8, 2.35 48.9, 2.33 48.9, 2.33 48.8))" := by
  refine ⟨?_, by decide, by decide⟩
  rw [queryGeoServer, if_neg (by simp [h1, h2, h3, h4]), if_neg h5]

set_option maxRecDepth 100000 in
/-- C1 witness: the Scenario B state builds exactly the expected URL, with
the comma and the spaces of the cql filter percent-encoded. -/
theorem wfsUrl_exact_w :
    queryGeoServer
      { top := "48.9", bottom := "48.8", left := "2.33", right := "2.35",
        selectedProducts := [("tmc1", true), ("tmc2", false), ("ohrc", true)],
        drawingMode := false } =
    QueryOutcome.request
      ("http://your-geoserver-url/geoserver/wfs?service=WFS&version=1.1.0&request=GetFeature&typeName=tmc1:datapoints,ohrc:datapoints&cql_filter=INTERSECTS(geom%2C%20POLYGON((2.33%2048.8%2C%202.35%2048.8%2C%202.35%2048.9%2C%202.33%2048.9%2C%202.33%2048.8)))&outputFormat=application/json") := by
  have h := wfsUrl_exact
    { top := "48.9", bottom := "48.8", left := "2.33", right := "2.35",
      selectedProducts := [("tmc1", true), ("tmc2", false), ("ohrc", true)],
      drawingMode := false }
    (by decide) (by decide) (by decide) (by decide) (by decide)
  exact h.1.trans (by decide)

/-- C2: for every sequence of at least 3 drawn points, the reduced box has
top equal to the maximum latitude, bottom the minimum latitude, left the
minimum longitude and right the maximum longitude (each bound is attained
by a point and bounds every point, hence bottom at most top and left at
most right), the result is invariant under permutation of the points, and
the Scenario A points (10,10),(10,20),(20,20),(20,10) as (lat,lon) give
the box top 20, bottom 10, left 10, right 20. -/
theorem boundingBox_minmax (pts ptsP : List (Rat × Rat)) (h3 : 3 ≤ pts.length)
    (hp : pts.Perm ptsP) :
    ((computeBox (pts.map Prod.fst) (pts.map Prod.snd)).top ∈ pts.map Prod.fst ∧
      ∀ p ∈ pts, p.1 ≤ (computeBox (pts.map Prod.fst) (pts.map Prod.snd)).top) ∧
    ((computeBox (pts.map Prod.fst) (pts.map Prod.snd)).bottom ∈ pts.map Prod.fst ∧
      ∀ p ∈ pts, (computeBox (pts.map Prod.fst) (pts.map Prod.snd)).bottom ≤ p.1) ∧
    ((computeBox (pts.map Prod.fst) (pts.map Prod.snd)).left ∈ pts.map Prod.snd ∧
      ∀ p ∈ pts, (computeBox (pts.map Prod.fst) (pts.map Prod.snd)).left ≤ p.2) ∧
    ((computeBox (pts.map Prod.fst) (pts.map Prod.snd)).right ∈ pts.map Prod.snd ∧
      ∀ p ∈ pts, p.2 ≤ (computeBox (pts.map Prod.fst) (pts.map Prod.snd)).right) ∧
    (computeBox (pts.map Prod.fst) (pts.map Prod.snd)).bottom ≤
      (computeBox (pts.map Prod.fst) (pts.map Prod.snd)).top ∧
    (computeBox (pts.map Prod.fst) (pts.map Prod.snd)).left ≤
      (computeBox (pts.map Prod.fst) (pts.map Prod.snd)).right ∧
    computeBox (ptsP.map Prod.fst) (ptsP.map Prod.snd) =
      computeBox (pts.map Prod.fst) (pts.map Prod.snd) ∧
    computeBox ([((10 : Rat), (10 : Rat)), (10, 20), (20, 20), (20, 10)].map Prod.fst)
        ([((10 : Rat), (10 : Rat)), (10, 20), (20, 20), (20, 10)].map Prod.snd) =
      { top := 20, bottom := 10, left := 10, right := 20 } := by
  have hne : pts ≠ [] := by
    intro h
    rw [h] at h3
    simp at h3
  have hlats : pts.map Prod.fst ≠ [] := by simpa using hne
  have hlons : pts.map Prod.snd ≠ [] := by simpa using hne
  have hlatsP : pts.map Prod.fst ≠ [] := hlats
  refine ⟨⟨listMax_mem _ hlats, ?_⟩, ⟨listMin_mem _ hlats, ?_⟩,
      ⟨listMin_mem _ hlons, ?_⟩, ⟨listMax_mem _ hlons, ?_⟩, ?_, ?_, ?_, by decide⟩
  · intro p hpmem
    exact le_listMax _ _ (List.mem_map_of_mem Prod.fst hpmem)
  · intro p hpmem
    exact listMin_le _ _ (List.mem_map_of_mem Prod.fst hpmem)
  · intro p hpmem
    exact listMin_le _ _ (List.mem_map_of_mem Prod.snd hpmem)
  · intro p hpmem
    exact le_listMax _ _ (List.mem_map_of_mem Prod.snd hpmem)
  · exact listMin_le _ _ (listMax_mem _ hlats)
  · exact listMin_le _ _ (listMax_mem _ hlons)
  · rw [computeBox, computeBox]
    rw [listMax_perm _ _ (hp.map Prod.fst) hlats, listMin_perm _ _ (hp.map Prod.fst) hlats,
      listMax_perm _ _ (hp.map Prod.snd) hlons, listMin_perm _ _ (hp.map Prod.snd) hlons]

/-- C2 witness: the Scenario A point list has at least 3 points and its
reversal is a permutation of it; the reduced box is top 20, bottom 10,
left 10, right 20 and 20 is the maximum latitude. -/
theorem boundingBox_minmax_w :
    3 ≤ ([((10 : Rat), (10 : Rat)), (10, 20), (20, 20), (20, 10)] : List (Rat × Rat)).length ∧
    computeBox ([((10 : Rat), (10 : Rat)), (10, 20), (20, 20), (20, 10)].map Prod.fst)
        ([((10 : Rat), (10 : Rat)), (10, 20), (20, 20), (20, 10)].map Prod.snd) =
      { top := 20, bottom := 10, left := 10, right := 20 } :=
  ⟨by decide,
    (boundingBox_minmax [((10 : Rat), (10 : Rat)), (10, 20), (20, 20), (20, 10)]
      [((10 : Rat), (10 : Rat)), (10, 20), (20, 20), (20, 10)]
      (by decide) (List.Perm.refl _)).2.2.2.2.2.2.2⟩

/-- C3: building fails with the AOI-incomplete validation alert whenever
any of the four coordinate fields is the empty string, and with the
no-product-selected validation alert whenever every product flag is false
even though all coordinates are present; in both cases the outcome is the
alert (no request URL is produced) and the stored state is returned
unchanged. -/
theorem build_validation (s : FilterState) :
    ((s.top = "" ∨ s.bottom = "" ∨ s.left = "" ∨ s.right = "") →
      queryGeoServerStep s = (s, QueryOutcome.validationAlert aoiIncompleteMsg)) ∧
    (s.top ≠ "" → s.bottom ≠ "" → s.left ≠ "" → s.right ≠ "" →
      (∀ p ∈ s.selectedProducts, p.2 = false) →
      queryGeoServerStep s = (s, QueryOutcome.validationAlert noProductMsg)) := by
  constructor
  · intro h
    rw [queryGeoServerStep, queryGeoServer, if_pos h]
  · intro h1 h2 h3 h4 h5
    rw [queryGeoServerStep, queryGeoServer, if_neg (by simp [h1, h2, h3, h4])]
    have hws : selectedWorkspaces s.selectedProducts = [] := by
      rw [selectedWorkspaces]
      rw [List.filter_eq_nil_iff.mpr (fun p hp => by simp [h5 p hp])]
      rfl
    rw [if_pos hws]

/-- C3 witness: the Scenario C state with an empty bottom field gets the
AOI-incomplete alert, and a complete-coordinates state with every product
deselected gets the no-product alert; both leave the state unchanged. -/
theorem build_validation_w :
    queryGeoServerStep
        { top := "48.9", bottom := "", left := "2.33", right := "2.35",
          selectedProducts := [("tmc1", true), ("tmc2", true), ("ohrc", true)],
          drawingMode := false } =
      ({ top := "48.9", bottom := "", left := "2.33", right := "2.35",
          selectedProducts := [("tmc1", true), ("tmc2", true), ("ohrc", true)],
          drawingMode := false }, QueryOutcome.validationAlert aoiIncompleteMsg) ∧
    queryGeoServerStep
        { top := "48.9", bottom := "48.8", left := "2.33", right := "2.35",
          selectedProducts := [("tmc1", false), ("tmc2", false), ("ohrc", false)],
          drawingMode := false } =
      ({ top := "48.9", bottom := "48.8", left := "2.33", right := "2.35",
          selectedProducts := [("tmc1", false), ("tmc2", false), ("ohrc", false)],
          drawingMode := false }, QueryOutcome.validationAlert noProductMsg) :=
  ⟨(build_validation _).1 (Or.inr (Or.inl rfl)),
    (build_validation _).2 (by decide) (by decide) (by decide) (by decide) (by decide)⟩

/-- C4 counterexample: a non-success HTTP response (status 500) whose body
is valid JSON is handed to addDataToWorkbench as a successful result, not
turned into an error - the fetch chain never inspects the status code, so
the claim that every non-success response fails with a query-execution
error is false at this input. -/
theorem fetch_nonsuccess_counterexample :
    runFetch (TransportOutcome.response 500
        (some (Json.obj [("error", Json.str "Internal Server Error")]))) =
      FetchResult.loaded
        (addDataToWorkbench (Json.obj [("error", Json.str "Internal Server Error")])) := rfl

/-- C4 amended: a transport failure is logged with its underlying cause and
a response body that is not valid JSON is logged as a parse error, and in
neither case is anything handed to the adapter; but the HTTP status is
never inspected, so any response with a valid JSON body - success or not -
is handed to the adapter as a successful result; a single fetch is issued,
with no retry. -/
theorem fetch_error_paths (cause : String) (status : Nat) (j : Json) :
    runFetch (TransportOutcome.networkError cause) = FetchResult.loggedError cause ∧
    runFetch (TransportOutcome.response status none) = FetchResult.loggedError jsonParseErrorMsg ∧
    runFetch (TransportOutcome.response status (some j)) =
      FetchResult.loaded (addDataToWorkbench j) :=
  ⟨rfl, rfl, rfl⟩

/-- C5: a drawing update with fewer than 3 points leaves the state exactly
as it was - no bounding box is produced, no coordinate field changes, and
no error is raised. -/
theorem fewPoints_noop (s : FilterState) (closeLoop : Bool)
    (entities : List (Option (Rat × Rat))) (h : entities.length < 3) :
    onDrawingUpdated s closeLoop entities = s := by
  rw [onDrawingUpdated, if_neg]
  rintro ⟨-, h3⟩
  omega

/-- C5 witness: a single-point update with the loop closed is a no-op on
the initial state. -/
theorem fewPoints_noop_w :
    ([some ((10 : Rat), (20 : Rat))] : List (Option (Rat × Rat))).length < 3 ∧
    onDrawingUpdated initialState true [some ((10 : Rat), (20 : Rat))] = initialState :=
  ⟨by decide, fewPoints_noop initialState true [some ((10 : Rat), (20 : Rat))] (by decide)⟩

/-- C6: the adapter is a total function returning exactly the record with
name Filtered Data, type tag geojson, the input document unmodified as its
data, and isEnabled true; in particular the Scenario D empty feature
collection is wrapped unmodified. -/
theorem adapter_total {α : Type} (d : α) :
    addDataToWorkbench d =
      { name := "Filtered Data", type := "geojson", data := d, isEnabled := true } ∧
    addDataToWorkbench (Json.obj [("type", Json.str "FeatureCollection"), ("features", Json.arr [])]) =
      { name := "Filtered Data", type := "geojson",
        data := Json.obj [("type", Json.str "FeatureCollection"), ("features", Json.arr [])],
        isEnabled := true } :=
  ⟨rfl, rfl⟩

/-- C7: applying a bounding box to the state and reading the four
coordinate fields back yields decimal text denoting exactly the box values
rounded to 6 decimal places (ties away from zero, as toFixed rounds). The
bounds keep the inputs inside the range where JS toFixed produces plain
decimal notation rather than exponential form. -/
theorem applyBox_roundtrip (s : FilterState) (box : BoundingBox)
    (h1 : |box.top| < 10 ^ 21) (h2 : |box.bottom| < 10 ^ 21)
    (h3 : |box.left| < 10 ^ 21) (h4 : |box.right| < 10 ^ 21) :
    parseDec (applyBoundingBox s box).top = some (round6 box.top) ∧
    parseDec (applyBoundingBox s box).bottom = some (round6 box.bottom) ∧
    parseDec (applyBoundingBox s box).left = some (round6 box.left) ∧
    parseDec (applyBoundingBox s box).right = some (round6 box.right) :=
  ⟨parseDec_toFixed6 box.top, parseDec_toFixed6 box.bottom,
    parseDec_toFixed6 box.left, parseDec_toFixed6 box.right⟩

/-- C7 witness: the box of Scenario B round-trips through the state; its
top field reads back as the 6-decimal rounding of 48.9. -/
theorem applyBox_roundtrip_w :
    |(489 / 10 : Rat)| < 10 ^ 21 ∧
    parseDec (applyBoundingBox initialState
        { top := 489 / 10, bottom := 488 / 10, left := 233 / 100, right := 235 / 100 }).top =
      some (round6 (489 / 10)) :=
  ⟨by rw [abs_of_pos (by norm_num)]; norm_num,
    (applyBox_roundtrip initialState
      { top := 489 / 10, bottom := 488 / 10, left := 233 / 100, right := 235 / 100 }
      (by rw [abs_of_pos (by norm_num)]; norm_num) (by rw [abs_of_pos (by norm_num)]; norm_num)
      (by rw [abs_of_pos (by norm_num)]; norm_num) (by rw [abs_of_pos (by norm_num)]; norm_num)).1⟩

/-- C8: query building is deterministic - two states that agree on the
four coordinate strings and on the product-selection map (whatever their
drawing-mode flags) build identical outcomes, hence identical WKT,
typeNames and request URL. -/
theorem build_deterministic (s1 s2 : FilterState)
    (h1 : s1.top = s2.top) (h2 : s1.bottom = s2.bottom) (h3 : s1.left = s2.left)
    (h4 : s1.right = s2.right) (h5 : s1.selectedProducts = s2.selectedProducts) :
    queryGeoServer s1 = queryGeoServer s2 := by
  rw [queryGeoServer, queryGeoServer, h1, h2, h3, h4, h5]

/-- C8 witness: the initial state with the drawing-mode flag toggled builds
the same outcome as the initial state. -/
theorem build_deterministic_w :
    queryGeoServer { initialState with drawingMode := true } = queryGeoServer initialState :=
  build_deterministic { initialState with drawingMode := true } initialState
    rfl rfl rfl rfl rfl

/-- C9: the initial state has all four coordinate fields empty and all
three products (tmc1, tmc2, ohrc) selected; consequently the
no-product-selected failure can only occur after the user has explicitly
deselected every product: whenever a build after any event sequence fails
with the no-product alert, that sequence contains a deselection event for
tmc1, one for tmc2 and one for ohrc. -/
theorem initial_selection (tr : List UiEvent) :
    initialState.top = "" ∧ initialState.bottom = "" ∧ initialState.left = "" ∧
    initialState.right = "" ∧
    initialState.selectedProducts = [("tmc1", true), ("tmc2", true), ("ohrc", true)] ∧
    (queryGeoServer (applyEvents initialState tr) = QueryOutcome.validationAlert noProductMsg →
      UiEvent.product "tmc1" false ∈ tr ∧ UiEvent.product "tmc2" false ∈ tr ∧
      UiEvent.product "ohrc" false ∈ tr) := by
  refine ⟨rfl, rfl, rfl, rfl, rfl, ?_⟩
  intro halert
  have hkey : ∀ k : String, getFlag initialState.selectedProducts k = some true →
      UiEvent.product k false ∈ tr := by
    intro k hk0
    by_contra hnotin
    have hne : ∀ e ∈ tr, e ≠ UiEvent.product k false := fun e he heq => hnotin (heq ▸ he)
    have hkept := getFlag_applyEvents tr initialState k hne hk0
    have hfalse := noProduct_alert_flags_false _ halert k true hkept
    exact Bool.noConfusion hfalse
  exact ⟨hkey "tmc1" (by decide), hkey "tmc2" (by decide), hkey "ohrc" (by decide)⟩

/-- C9 witness: a trace that fills the coordinates and deselects all three
products makes the build fail with the no-product alert, and indeed that
trace contains a deselection of each of tmc1, tmc2 and ohrc. -/
theorem initial_selection_w :
    queryGeoServer (applyEvents initialState
        [UiEvent.input CoordField.top "1", UiEvent.input CoordField.bottom "0",
          UiEvent.input CoordField.left "2", UiEvent.input CoordField.right "3",
          UiEvent.product "tmc1" false, UiEvent.product "tmc2" false,
          UiEvent.product "ohrc" false]) =
      QueryOutcome.validationAlert noProductMsg ∧
    UiEvent.product "tmc1" false ∈
      [UiEvent.input CoordField.top "1", UiEvent.input CoordField.bottom "0",
        UiEvent.input CoordField.left "2", UiEvent.input CoordField.right "3",
        UiEvent.product "tmc1" false, UiEvent.product "tmc2" false,
        UiEvent.product "ohrc" false] :=
  ⟨by decide,
    ((initial_selection
      [UiEvent.input CoordField.top "1", UiEvent.input CoordField.bottom "0",
        UiEvent.input CoordField.left "2", UiEvent.input CoordField.right "3",
        UiEvent.product "tmc1" false, UiEvent.product "tmc2" false,
        UiEvent.product "ohrc" false]).2.2.2.2.2 (by decide)).1⟩

/-- C10: a successful reduction overwrites exactly the four coordinate
fields and the drawing-mode flag and never the selection map (no drawing
update touches the selection); conversely a product toggle sets exactly
the toggled flag, leaving every other flag, the four coordinate fields and
the drawing-mode flag unchanged. -/
theorem frame_updates (s : FilterState) (closeLoop : Bool)
    (entities : List (Option (Rat × Rat))) (box : BoundingBox) (name m : String)
    (checked : Bool) (hm : m ≠ name) :
    (onDrawingUpdated s closeLoop entities).selectedProducts = s.selectedProducts ∧
    (applyBoundingBox s box).selectedProducts = s.selectedProducts ∧
    (applyBoundingBox s box).top = toFixed6 box.top ∧
    (applyBoundingBox s box).bottom = toFixed6 box.bottom ∧
    (applyBoundingBox s box).left = toFixed6 box.left ∧
    (applyBoundingBox s box).right = toFixed6 box.right ∧
    (applyBoundingBox s box).drawingMode = false ∧
    (handleProductChange s name checked).top = s.top ∧
    (handleProductChange s name checked).bottom = s.bottom ∧
    (handleProductChange s name checked).left = s.left ∧
    (handleProductChange s name checked).right = s.right ∧
    (handleProductChange s name checked).drawingMode = s.drawingMode ∧
    getFlag (handleProductChange s name checked).selectedProducts name = some checked ∧
    getFlag (handleProductChange s name checked).selectedProducts m =
      getFlag s.selectedProducts m :=
  ⟨onDrawingUpdated_selectedProducts s closeLoop entities, rfl, rfl, rfl, rfl, rfl, rfl,
    rfl, rfl, rfl, rfl, rfl,
    getFlag_upsert_self s.selectedProducts name checked,
    getFlag_upsert_ne s.selectedProducts name m checked hm⟩

/-- C10 witness: deselecting tmc1 in the initial state leaves the tmc2 flag
untouched. -/
theorem frame_updates_w :
    ("tmc2" : String) ≠ "tmc1" ∧
    getFlag (handleProductChange initialState "tmc1" false).selectedProducts "tmc2" =
      getFlag initialState.selectedProducts "tmc2" := by
  have h := frame_updates initialState false [] { top := 0, bottom := 0, left := 0, right := 0 }
    "tmc1" "tmc2" false (by decide)
  exact ⟨by decide, h.2.2.2.2.2.2.2.2.2.2.2.2.2⟩
